import Mathlib

/-!
Verification development for the SEO RAG planner core
(`src/lib/rag/pipeline.ts`, `src/lib/llm/generator.ts`,
`src/lib/skills/contentGapGenerator.ts`).

JavaScript strings are modelled as `List Char`; JavaScript `number`s are
modelled as exact rationals (`ℚ`) where the code does arithmetic and
comparisons on scores, and as reals (`ℝ`) for the cosine-similarity
computation (which uses a square root).  Asynchronous external calls
(embedding, vector-index search, model calls) are modelled by passing
their outcomes in as explicit function arguments; thrown exceptions are
modelled with `Except String`.
-/

namespace SEO

/-! ## JavaScript string primitives -/

/-- The whitespace characters recognised by the JavaScript `\s` class and
`String.prototype.trim` (ASCII subset, which is all the corpus uses). -/
def jsWhitespace (c : Char) : Bool :=
  c = ' ' || c = '\t' || c = '\n' || c = '\r' || c = '\x0b' || c = '\x0c'

/-- `String.prototype.trim`: drop leading and trailing whitespace. -/
def jsTrim (l : List Char) : List Char :=
  ((l.dropWhile jsWhitespace).reverse.dropWhile jsWhitespace).reverse

/-- `String.prototype.split('\n')` (separator is a single character,
separators are removed, empty segments kept). -/
def splitOnChar (sep : Char) : List Char → List (List Char)
  | [] => [[]]
  | c :: rest =>
    let tail := splitOnChar sep rest
    if c = sep then
      [] :: tail
    else
      match tail with
      | [] => [[c]]
      | seg :: segs => (c :: seg) :: segs

/-- Does `hay` start with `needle`? -/
def startsWithChars : List Char → List Char → Bool
  | [], _ => true
  | _ :: _, [] => false
  | a :: as, b :: bs => a = b && startsWithChars as bs

/-- `String.prototype.includes(needle)`. -/
def containsSub (needle : List Char) : List Char → Bool
  | [] => needle.isEmpty
  | c :: rest => startsWithChars needle (c :: rest) || containsSub needle rest

/-- `split(/(?=...)/)` with a zero-width lookahead: the string is cut
immediately before every position (other than position 0) at which the
predicate `p` matches the remaining suffix.  All characters are kept.
The accumulator is non-empty except at the very start of the string, so
`acc ≠ []` is exactly "we are not at position 0". -/
def splitBeforeAux (p : List Char → Bool) (acc : List Char) :
    List Char → List (List Char)
  | [] => [acc]
  | c :: rest =>
    if p (c :: rest) && !acc.isEmpty then
      acc :: splitBeforeAux p [c] rest
    else
      splitBeforeAux p (acc ++ [c]) rest

def splitBefore (p : List Char → Bool) (l : List Char) : List (List Char) :=
  splitBeforeAux p [] l

/-! ## Chunker (`chunkManualText`, pipeline.ts lines 230–293) -/

/-- The Chinese numerals accepted by the chapter-marker class
`[一二三四五六七八九十]`. -/
def chineseDigit (c : Char) : Bool :=
  c = '一' || c = '二' || c = '三' || c = '四' || c = '五' ||
  c = '六' || c = '七' || c = '八' || c = '九' || c = '十'

/-- After at least one Chinese numeral: more numerals then `章`. -/
def digitsThenZhang : List Char → Bool
  | [] => false
  | c :: rest => c = '章' || (chineseDigit c && digitsThenZhang rest)

/-- The suffix starts with a match of `第[一二三四五六七八九十]+章`. -/
def startsChapterMarker : List Char → Bool
  | '第' :: c :: rest => chineseDigit c && digitsThenZhang rest
  | _ => false

/-- ASCII decimal digit (JavaScript `\d`). -/
def asciiDigit (c : Char) : Bool := '0' ≤ c && c ≤ '9'

/-- After the dot: at least one digit, more digits, then a whitespace
(the `\d+\s` half of the section marker). -/
def digitsThenWs : List Char → Bool
  | c :: d :: rest => asciiDigit c && (jsWhitespace d || digitsThenWs (d :: rest))
  | _ => false

/-- After at least one digit: more digits then `.` and the second half. -/
def digitsThenDotDigitsWs : List Char → Bool
  | [] => false
  | c :: rest =>
    if c = '.' then digitsThenWs rest
    else asciiDigit c && digitsThenDotDigitsWs rest

/-- The suffix starts with a match of `\d+\.\d+\s`. -/
def startsSectionMarker : List Char → Bool
  | [] => false
  | c :: rest => asciiDigit c && digitsThenDotDigitsWs rest

/-- Index of the last `'\n'` in a list, if any. -/
def lastNewlineIdx : List Char → Option Nat
  | [] => none
  | c :: rest =>
    match lastNewlineIdx rest with
    | some k => some (k + 1)
    | none => if c = '\n' then some 0 else none

/-- Try to match the separator regex `\n\s*\n` at the head of the list.
A match requires a `'\n'`, then (greedily) whitespace ending at a final
`'\n'`; with backtracking, the match extends to the last `'\n'` inside
the whitespace run that follows.  Returns the remainder after the match. -/
def paraSep : List Char → Option (List Char)
  | '\n' :: rest =>
    let run := rest.takeWhile jsWhitespace
    match lastNewlineIdx run with
    | some k => some (rest.drop (k + 1))
    | none => none
  | _ => none

/-- `split(/\n\s*\n/)`: cut at every separator match, scanning left to
right and resuming after each match.  `fuel` bounds the number of steps;
each step consumes at least one character, so `fuel = length` suffices
and the `0` branch is unreachable. -/
def splitParasAux (acc : List Char) : Nat → List Char → List (List Char)
  | _, [] => [acc]
  | 0, rest => [acc ++ rest]
  | fuel + 1, c :: rest =>
    match paraSep (c :: rest) with
    | some rem => acc :: splitParasAux [] fuel rem
    | none => splitParasAux (acc ++ [c]) fuel rest

def splitParas (l : List Char) : List (List Char) :=
  splitParasAux [] l.length l

/-- `TextChunk` (pipeline.ts lines 11–19), with the metadata fields
inlined. -/
structure TextChunk where
  id : String
  content : List Char
  source : String
  chapter : List Char
  chunkIndex : Nat
  deriving Repr, DecidableEq

/-- One structural-pass section: trim, drop if shorter than 10
characters, otherwise append a chunk whose `chunkIndex` is the number of
chunks emitted so far (`chunks.length` in the source). -/
def pushSection (source : String) (chapterIndex : Nat) (chapterTitle : List Char)
    (acc : List TextChunk) (si : Nat × List Char) : List TextChunk :=
  let content := jsTrim si.2
  if content.length < 10 then acc
  else
    acc ++ [{ id := source ++ "-ch" ++ toString chapterIndex ++ "-s" ++ toString si.1,
              content := content, source := source, chapter := chapterTitle,
              chunkIndex := acc.length }]

/-- One chapter of the structural pass: compute the chapter title from
the first line (with `-`/`=` removed; the empty string is falsy and
falls back to `段落 N`), split the chapter on sub-section markers, and
push each long-enough section. -/
def processChapter (source : String) (acc : List TextChunk)
    (ci : Nat × List Char) : List TextChunk :=
  match splitOnChar '\n' (jsTrim ci.2) with
  | [] => acc
  | l0 :: _ =>
    let t := jsTrim (l0.filter (fun c => !(c = '-' || c = '=')))
    let chapterTitle := if t.isEmpty then ("段落 " ++ toString (ci.1 + 1)).data else t
    ((splitBefore startsSectionMarker ci.2).enum).foldl
      (pushSection source ci.1 chapterTitle) acc

/-- The structural pass: split on chapter markers, then per chapter on
sub-section markers. -/
def structuralChunks (text : List Char) (source : String) : List TextChunk :=
  ((splitBefore startsChapterMarker text).enum).foldl (processChapter source) []

/-- One paragraph of the fallback pass: trim, drop if shorter than 10
characters, else append; note that the recorded `chunkIndex` is the
paragraph's index `i` in the split (which may skip numbers when short
paragraphs are dropped). -/
def pushParagraph (source : String) (acc : List TextChunk)
    (pi : Nat × List Char) : List TextChunk :=
  let content := jsTrim pi.2
  if content.length < 10 then acc
  else
    acc ++ [{ id := source ++ "-p" ++ toString pi.1, content := content,
              source := source, chapter := "全文".data, chunkIndex := pi.1 }]

/-- The paragraph fallback pass: split on blank lines. -/
def paragraphChunks (text : List Char) (source : String) : List TextChunk :=
  ((splitParas text).enum).foldl (pushParagraph source) []

/-- The terminal fallback chunk: the entire trimmed text as one chunk. -/
def fullDocChunk (text : List Char) (source : String) : TextChunk :=
  { id := source ++ "-full", content := jsTrim text, source := source,
    chapter := "全文".data, chunkIndex := 0 }

/-- `chunkManualText` (pipeline.ts lines 230–293). -/
def chunkManualText (text : List Char) (source : String) : List TextChunk :=
  let c1 := structuralChunks text source
  let c2 := if c1.isEmpty then paragraphChunks text source else c1
  if c2.isEmpty ∧ 0 < (jsTrim text).length then [fullDocChunk text source]
  else c2

/-! ## Retrieval data model (`RetrievedDocument`, `RetrieveResult`) and the
partition loop of `RAGPipeline.retrieve` (pipeline.ts lines 374–403).
Scores are exact rationals. -/

def MIN_SCORE : ℚ := 65 / 100

structure RetrievedDocument where
  content : List Char
  chapter : List Char
  score : ℚ
  source : String
  deriving Repr, DecidableEq

structure RetrieveResult where
  docs : List RetrievedDocument
  skipped : List RetrievedDocument
  threshold : ℚ
  deriving Repr, DecidableEq

/-- `Math.round(x)`: round half toward positive infinity. -/
def jsRound (q : ℚ) : ℤ := ⌊q + 1 / 2⌋

/-- `Math.round(score * 1000) / 1000`: round to 3 decimal places. -/
def round3 (q : ℚ) : ℚ := (jsRound (q * 1000) : ℚ) / 1000

/-- One candidate returned by `vectorStore.search`. -/
structure Candidate where
  payload : TextChunk
  score : ℚ
  deriving Repr, DecidableEq

/-- The document built for each candidate (pipeline.ts lines 387–392):
the carried score is the rounded one. -/
def mkRetrievedDoc (r : Candidate) : RetrievedDocument :=
  { content := r.payload.content, chapter := r.payload.chapter,
    score := round3 r.score, source := r.payload.source }

/-- The partition loop of `retrieve` (pipeline.ts lines 386–399): each
candidate is pushed, in order, to `docs` when its raw score is
`>= MIN_SCORE` and to `skipped` otherwise, so the two lists are the two
order-preserving filters of the candidate list. -/
def retrieveFromResults (results : List Candidate) : RetrieveResult :=
  { docs := (results.filter (fun r => MIN_SCORE ≤ r.score)).map mkRetrievedDoc,
    skipped := (results.filter (fun r => r.score < MIN_SCORE)).map mkRetrievedDoc,
    threshold := MIN_SCORE }

/-! ## Vector stores, factory and pipeline state
(pipeline.ts lines 49–186, 299–355) -/

structure VectorEntry (α : Type) where
  id : String
  vector : List α
  payload : TextChunk
  deriving Repr, DecidableEq

/-- The two `VectorStore` implementations.  The remote Qdrant store's
points live on the external service, so only its tracked `_size` is
modelled; the in-memory store is its full entry list. -/
inductive StoreState
  | qdrant (size : Nat)
  | inMemory (entries : List (VectorEntry ℚ))
  deriving Repr, DecidableEq

def StoreState.size : StoreState → Nat
  | .qdrant n => n
  | .inMemory entries => entries.length

def StoreState.typeName : StoreState → String
  | .qdrant _ => "Qdrant Cloud"
  | .inMemory _ => "In-Memory"

/-- `InMemoryVectorStore.upsert`: replace the entry with the same id in
place, else append. -/
def upsertEntry (entries : List (VectorEntry ℚ)) (id : String) (v : List ℚ)
    (p : TextChunk) : List (VectorEntry ℚ) :=
  match entries.findIdx? (fun e => e.id = id) with
  | some i => entries.set i ⟨id, v, p⟩
  | none => entries ++ [⟨id, v, p⟩]

/-- `upsert` on either store; the Qdrant variant increments `_size`. -/
def StoreState.upsert : StoreState → String → List ℚ → TextChunk → StoreState
  | .qdrant n, _, _, _ => .qdrant (n + 1)
  | .inMemory entries, id, v, p => .inMemory (upsertEntry entries id v p)

/-- The environment visible to `createVectorStore`: the two credential
variables, and the outcome of `QdrantVectorStore.ensureCollection` (on
success, the `points_count` the collection already holds — 0 when it
was created fresh). -/
structure Env where
  qdrantUrl : Option String
  qdrantApiKey : Option String
  ensure : Except String Nat

/-- JavaScript truthiness of an optional string environment variable
(`undefined` and the empty string are falsy). -/
def truthy : Option String → Bool
  | some s => !s.isEmpty
  | none => false

/-- `createVectorStore` (pipeline.ts lines 299–317): with truthy
credentials, try the Qdrant store and degrade to a fresh in-memory
store when `ensureCollection` throws; without credentials, go straight
to the in-memory store.  The `Except` return mirrors the async function
being able to reject — the body never does. -/
def createVectorStore (env : Env) : Except String StoreState :=
  if truthy env.qdrantUrl && truthy env.qdrantApiKey then
    match env.ensure with
    | .ok n => .ok (.qdrant n)
    | .error _ => .ok (.inMemory [])
  else
    .ok (.inMemory [])

structure PipelineState where
  vectorStore : Option StoreState
  isInitialized : Bool
  deriving Repr, DecidableEq

structure InitResult where
  chunksStored : Nat
  storeType : String
  deriving Repr, DecidableEq

/-- The sequential embed-and-upsert loop of `initialize` (pipeline.ts
lines 337–346): a failed embedding is skipped, a successful one is
upserted and counted. -/
def ingestChunks (embed : List Char → Except String (List ℚ)) :
    List TextChunk → StoreState × Nat → StoreState × Nat
  | [], st => st
  | chunk :: rest, (store, cnt) =>
    match embed chunk.content with
    | .ok v => ingestChunks embed rest (store.upsert chunk.id v chunk, cnt + 1)
    | .error _ => ingestChunks embed rest (store, cnt)

/-- `RAGPipeline.initialize` (pipeline.ts lines 330–355).  The method
first replaces `this.vectorStore` with a freshly created store, then
chunks the corpus and ingests every chunk; it throws when no chunk
embeds successfully (in which case `this.vectorStore` keeps the new
store but `isInitialized` keeps its old value), and otherwise sets
`isInitialized` and reports the store's size and variant. -/
def RAGPipeline.initializeCorpus (st : PipelineState) (env : Env)
    (embed : List Char → Except String (List ℚ)) (manualText : List Char) :
    PipelineState × Except String InitResult :=
  match createVectorStore env with
  | .error e => (st, .error e)
  | .ok store0 =>
    let chunks := chunkManualText manualText "Manual.txt"
    let res := ingestChunks embed chunks (store0, 0)
    if res.2 = 0 then
      ({ st with vectorStore := some res.1 },
       .error ("RAG 初始化失敗：" ++ toString chunks.length ++
               " 個 chunks 全部 embedding 失敗"))
    else
      ({ vectorStore := some res.1, isInitialized := true },
       .ok { chunksStored := res.1.size, storeType := res.1.typeName })

/-- `RAGPipeline.retrieve` (pipeline.ts lines 374–403).  The candidates
returned by `this.vectorStore.search(queryVector, topK)` are passed in
as `searchResults`. -/
def RAGPipeline.retrieve (st : PipelineState) (searchResults : List Candidate) :
    Except String RetrieveResult :=
  match st.vectorStore with
  | none => .error "RAG pipeline not initialized. Call initialize() first."
  | some store =>
    if !st.isInitialized || store.size = 0 then
      .error "RAG pipeline not initialized. Call initialize() first."
    else
      .ok (retrieveFromResults searchResults)

/-! ## Cosine similarity and in-memory search
(`cosineSimilarity`, `InMemoryVectorStore.search`,
pipeline.ts lines 157–200).  Vector components are reals here because
the similarity divides by square roots of sums of squares. -/

/-- `cosineSimilarity` (pipeline.ts lines 188–200): 0 on a length
mismatch; otherwise the single loop accumulates the dot product and the
two squared norms, and the result is 0 when the product of the square
roots is 0 and the quotient otherwise. -/
noncomputable def cosineSimilarity (a b : List ℝ) : ℝ :=
  if a.length ≠ b.length then 0
  else
    let dotProduct := (a.zipWith (fun x y => x * y) b).sum
    let normA := (a.map (fun x => x * x)).sum
    let normB := (b.map (fun x => x * x)).sum
    let denominator := Real.sqrt normA * Real.sqrt normB
    if denominator = 0 then 0 else dotProduct / denominator

/-- `InMemoryVectorStore.search` (pipeline.ts lines 170–181): score
every stored entry against the query, sort by descending score
(`(a, b) => b.score - a.score` under a stable JavaScript sort), and keep
the first `topK`. -/
noncomputable def searchInMemory (entries : List (VectorEntry ℝ))
    (queryVector : List ℝ) (topK : Nat) : List (TextChunk × ℝ) :=
  if entries.isEmpty then []
  else
    (((entries.map
          (fun e => (e.payload, cosineSimilarity queryVector e.vector))).mergeSort
        (fun x y => decide (y.2 ≤ x.2))).take topK)

/-! ## Generator (`generatePlanningReport`, generator.ts lines 160–237).
The model call and the `safeParseJSON` repair chain are passed in as
functions: a call either resolves to raw text or rejects with an error
message, and `safeParseJSON` — whose every strategy is wrapped in
`try`/`catch` — totally returns either a parsed object (with possibly
missing or mis-shaped fields) or `null`, here `Option`. -/

inductive CallResult
  | ok (text : String)
  | err (msg : String)
  deriving Repr, DecidableEq

namespace Generator

/-- The hardcoded model priority list (generator.ts line 160). -/
def MODEL_FALLBACKS : List String :=
  ["gemini-3-flash", "gemini-3-pro", "gemini-3.1-pro",
   "gemini-2.5-pro", "gemini-2.5-flash"]

structure OutlineSection where
  heading : String
  description : String
  source : String
  deriving Repr, DecidableEq

/-- `PlanningReport` (generator.ts lines 9–17); the optional
`isFallback` field is `false` when absent. -/
structure PlanningReport where
  title : String
  outline : List OutlineSection
  complianceNotes : List String
  contentStrategy : String
  riskWarnings : List String
  disclaimer : String
  isFallback : Bool
  deriving Repr, DecidableEq

/-- A successfully parsed JSON object before field normalization:
each field may be absent or of the wrong shape (`none`). -/
structure ParsedReport where
  title : Option String
  outline : Option (List OutlineSection)
  complianceNotes : Option (List String)
  contentStrategy : Option String
  riskWarnings : Option (List String)
  disclaimer : Option String
  deriving Repr, DecidableEq

/-- JavaScript `x || d` for string-valued fields: `undefined` and the
empty string fall back to the default. -/
def jsOrElse (o : Option String) (d : String) : String :=
  match o with
  | some s => if s.isEmpty then d else s
  | none => d

/-- `error.message.includes('API key')` — the credential classifier. -/
def isCredentialMsg (msg : String) : Bool :=
  containsSub "API key".data msg.data

/-- The terminal fallback report built when `safeParseJSON` returns
`null` (generator.ts lines 200–212).  `text.slice(0, 500)` and
`text.slice(0, 1000)` are modelled as character prefixes. -/
def fallbackReport (keyword text : String) : PlanningReport :=
  { title := keyword ++ " — SEO 撰寫規劃建議書",
    outline := [{ heading := "規劃內容（原始輸出）",
                  description := String.mk (text.data.take 500),
                  source := "seo_strategy" }],
    complianceNotes := ["請參考內部合規手冊"],
    contentStrategy := String.mk (text.data.take 1000),
    riskWarnings := ["本文僅供參考"],
    disclaimer := "本文僅供參考，不構成任何金融投資建議。",
    isFallback := true }

/-- Field normalization of a successful parse (generator.ts lines
216–223): absent or mis-shaped fields are defaulted, and `isFallback`
is left unset (`false`). -/
def normalizeReport (keyword : String) (p : ParsedReport) : PlanningReport :=
  { title := jsOrElse p.title (keyword ++ " — SEO 撰寫規劃建議書"),
    outline := p.outline.getD [],
    complianceNotes := p.complianceNotes.getD [],
    contentStrategy := jsOrElse p.contentStrategy "",
    riskWarnings := p.riskWarnings.getD [],
    disclaimer := jsOrElse p.disclaimer "本文僅供參考，不構成任何金融投資建議。",
    isFallback := false }

/-- The candidate loop of `generatePlanningReport` (generator.ts lines
176–236), over the remaining candidate list and the error messages
accumulated so far.  A successful call is parsed: `null` yields the
terminal fallback report, a parse yields the normalized report.  A
failed call records `modelName + ": " + msg`; a credential-classified
message then throws the fatal configuration error, any other message
advances to the next candidate.  Exhaustion throws the aggregate error
joining every recorded message. -/
def generateLoop (call : String → CallResult)
    (parse : String → Option ParsedReport) (keyword : String) :
    List String → List String → Except String PlanningReport
  | [], errors =>
    .error ("所有模型均失敗:\n" ++ String.intercalate "\n" errors)
  | m :: rest, errors =>
    match call m with
    | .ok text =>
      match parse text with
      | none => .ok (fallbackReport keyword text)
      | some p => .ok (normalizeReport keyword p)
    | .err msg =>
      let errors' := errors ++ [m ++ ": " ++ msg]
      if isCredentialMsg msg then
        .error "Invalid Gemini API key. Please check your GEMINI_API_KEY environment variable."
      else
        generateLoop call parse keyword rest errors'

/-- `generatePlanningReport` (generator.ts lines 162–237): missing API
key throws immediately, otherwise the candidate loop runs over
`MODEL_FALLBACKS` with an empty error list. -/
def generatePlanningReport (apiKey : Option String)
    (call : String → CallResult) (parse : String → Option ParsedReport)
    (keyword : String) : Except String PlanningReport :=
  if !truthy apiKey then
    .error "GEMINI_API_KEY environment variable is not set"
  else
    generateLoop call parse keyword MODEL_FALLBACKS []

end Generator

/-! ## Content-gap generator (`generateContentGaps`,
contentGapGenerator.ts lines 74–132).  `parseGapResponse` — all of
whose parse attempts are wrapped in `try`/`catch` and which returns
`[]` on total failure — is passed in as a total function to a gap
list. -/

namespace ContentGapGen

/-- Same hardcoded list, duplicated in contentGapGenerator.ts line 72. -/
def MODEL_FALLBACKS : List String :=
  ["gemini-3-flash", "gemini-3-pro", "gemini-3.1-pro",
   "gemini-2.5-pro", "gemini-2.5-flash"]

structure ContentGap where
  topic : String
  reasoning : String
  priority : String
  deriving Repr, DecidableEq

/-- `ContentGapResult` without the wall-clock `timestamp` field. -/
structure ContentGapResult where
  gaps : List ContentGap
  analysisMethod : String
  deriving Repr, DecidableEq

/-- The candidate loop of `generateContentGaps` (contentGapGenerator.ts
lines 84–131).  A successful call with a non-empty parsed gap list
returns it; an empty parse silently advances.  A failed call records
the message; a credential-classified message rethrows the original
error, any other advances.  Exhaustion returns the empty result marked
`分析失敗` — it does not throw. -/
def generateGapsLoop (call : String → CallResult)
    (parseGaps : String → List ContentGap) :
    List String → List String → Except String ContentGapResult
  | [], _errors => .ok { gaps := [], analysisMethod := "分析失敗" }
  | m :: rest, errors =>
    match call m with
    | .ok text =>
      let gaps := parseGaps text
      if 0 < gaps.length then
        .ok { gaps := gaps, analysisMethod := "LLM 動態分析 (" ++ m ++ ")" }
      else
        generateGapsLoop call parseGaps rest errors
    | .err msg =>
      let errors' := errors ++ [m ++ ": " ++ msg]
      if Generator.isCredentialMsg msg then
        .error msg
      else
        generateGapsLoop call parseGaps rest errors'

/-- `generateContentGaps` (contentGapGenerator.ts lines 74–132). -/
def generateContentGaps (apiKey : Option String)
    (call : String → CallResult) (parseGaps : String → List ContentGap) :
    Except String ContentGapResult :=
  if !truthy apiKey then
    .error "GEMINI_API_KEY environment variable is not set"
  else
    generateGapsLoop call parseGaps MODEL_FALLBACKS []

end ContentGapGen

/-! # Theorems -/

/-! ## C1 — chunker output -/

theorem mem_foldl_pushSection (source : String) (chIdx : Nat) (title : List Char)
    (l : List (Nat × List Char)) :
    ∀ (acc : List TextChunk) (c : TextChunk),
      c ∈ l.foldl (pushSection source chIdx title) acc →
      c ∈ acc ∨ 10 ≤ c.content.length := by
  induction l with
  | nil => exact fun acc c h => Or.inl h
  | cons si rest ih =>
    intro acc c h
    rw [List.foldl_cons] at h
    rcases ih _ c h with h' | h'
    · simp only [pushSection] at h'
      by_cases hlen : (jsTrim si.2).length < 10
      · rw [if_pos hlen] at h'; exact Or.inl h'
      · rw [if_neg hlen] at h'
        rcases List.mem_append.mp h' with h'' | h''
        · exact Or.inl h''
        · right
          have hc := List.mem_singleton.mp h''
          subst hc
          exact Nat.not_lt.mp hlen
    · exact Or.inr h'

theorem mem_foldl_processChapter (source : String) (l : List (Nat × List Char)) :
    ∀ (acc : List TextChunk) (c : TextChunk),
      c ∈ l.foldl (processChapter source) acc →
      c ∈ acc ∨ 10 ≤ c.content.length := by
  induction l with
  | nil => exact fun acc c h => Or.inl h
  | cons ch rest ih =>
    intro acc c h
    rw [List.foldl_cons] at h
    rcases ih _ c h with h' | h'
    · simp only [processChapter] at h'
      cases hsplit : splitOnChar '\n' (jsTrim ch.2) with
      | nil => rw [hsplit] at h'; exact Or.inl h'
      | cons l0 ls =>
        rw [hsplit] at h'
        exact mem_foldl_pushSection _ _ _ _ _ _ h'
    · exact Or.inr h'

theorem mem_structuralChunks (text : List Char) (source : String) (c : TextChunk)
    (h : c ∈ structuralChunks text source) : 10 ≤ c.content.length := by
  rcases mem_foldl_processChapter source _ [] c h with h' | h'
  · cases h'
  · exact h'

theorem mem_foldl_pushParagraph (source : String) (l : List (Nat × List Char)) :
    ∀ (acc : List TextChunk) (c : TextChunk),
      c ∈ l.foldl (pushParagraph source) acc →
      c ∈ acc ∨ 10 ≤ c.content.length := by
  induction l with
  | nil => exact fun acc c h => Or.inl h
  | cons pi rest ih =>
    intro acc c h
    rw [List.foldl_cons] at h
    rcases ih _ c h with h' | h'
    · simp only [pushParagraph] at h'
      by_cases hlen : (jsTrim pi.2).length < 10
      · rw [if_pos hlen] at h'; exact Or.inl h'
      · rw [if_neg hlen] at h'
        rcases List.mem_append.mp h' with h'' | h''
        · exact Or.inl h''
        · right
          have hc := List.mem_singleton.mp h''
          subst hc
          exact Nat.not_lt.mp hlen
    · exact Or.inr h'

theorem mem_paragraphChunks (text : List Char) (source : String) (c : TextChunk)
    (h : c ∈ paragraphChunks text source) : 10 ≤ c.content.length := by
  rcases mem_foldl_pushParagraph source _ [] c h with h' | h'
  · cases h'
  · exact h'

/-- C1, counterexample.  The claim — for every non-empty input the
chunker returns a non-empty list and every chunk has content length at
least 10 — fails twice: the non-empty whitespace-only input `" "` yields
an empty chunk list (the terminal fallback is guarded by
`text.trim().length > 0`), and the input `"abc"` yields a single
full-document fallback chunk whose content has length 3. -/
theorem C1_counterexample :
    (" ".data ≠ ([] : List Char) ∧ chunkManualText " ".data "Manual.txt" = []) ∧
    (∃ c ∈ chunkManualText "abc".data "Manual.txt", c.content.length < 10) :=
  ⟨⟨by decide, by decide⟩,
   ⟨fullDocChunk "abc".data "Manual.txt", by decide, by decide⟩⟩

/-- C1, amended.  For every input whose *trimmed* text is non-empty the
chunker returns a non-empty list; every chunk either has content length
at least 10 or is the terminal full-document fallback chunk (whose
content is the entire trimmed text and may be shorter than 10); and when
both the structural pass and the paragraph pass yield zero chunks and
the trimmed text is non-empty, the output is exactly that one
full-document chunk. -/
theorem C1_chunkManualText (text : List Char) (source : String) :
    (jsTrim text ≠ [] → chunkManualText text source ≠ []) ∧
    (∀ c ∈ chunkManualText text source,
        10 ≤ c.content.length ∨ c = fullDocChunk text source) ∧
    (structuralChunks text source = [] → paragraphChunks text source = [] →
        jsTrim text ≠ [] →
        chunkManualText text source = [fullDocChunk text source] ∧
        (fullDocChunk text source).content = jsTrim text) := by
  refine ⟨?_, ?_, ?_⟩
  · intro htrim
    have hpos : 0 < (jsTrim text).length := List.length_pos.mpr htrim
    simp only [chunkManualText]
    by_cases h2 :
        (if (structuralChunks text source).isEmpty then
          paragraphChunks text source else structuralChunks text source).isEmpty
    · rw [if_pos ⟨h2, hpos⟩]
      simp
    · rw [if_neg (fun hcon => h2 hcon.1)]
      intro heq
      rw [heq] at h2
      exact h2 rfl
  · intro c hc
    simp only [chunkManualText] at hc
    by_cases hcond :
        ((if (structuralChunks text source).isEmpty then
            paragraphChunks text source else structuralChunks text source).isEmpty
          ∧ 0 < (jsTrim text).length)
    · rw [if_pos hcond] at hc
      exact Or.inr (List.mem_singleton.mp hc)
    · rw [if_neg hcond] at hc
      by_cases h1 : (structuralChunks text source).isEmpty
      · rw [if_pos h1] at hc
        exact Or.inl (mem_paragraphChunks text source c hc)
      · rw [if_neg h1] at hc
        exact Or.inl (mem_structuralChunks text source c hc)
  · intro hs hp htrim
    have hpos : 0 < (jsTrim text).length := List.length_pos.mpr htrim
    refine ⟨?_, rfl⟩
    simp only [chunkManualText, hs, hp]
    simp [hpos]

/-- C1 witness: the amended theorem applied at the concrete input
`"abc"`, whose trimmed text is non-empty while both passes yield zero
chunks. -/
theorem C1_witness :
    chunkManualText "abc".data "Manual.txt" ≠ [] ∧
    chunkManualText "abc".data "Manual.txt" =
      [fullDocChunk "abc".data "Manual.txt"] :=
  ⟨(C1_chunkManualText "abc".data "Manual.txt").1 (by decide),
   ((C1_chunkManualText "abc".data "Manual.txt").2.2 (by decide) (by decide)
      (by decide)).1⟩

/-! ## C2 — retrieve partition -/

theorem round3_mono {q r : ℚ} (h : q ≤ r) : round3 q ≤ round3 r := by
  unfold round3 jsRound
  have hf : ⌊q * 1000 + 1 / 2⌋ ≤ ⌊r * 1000 + 1 / 2⌋ := by
    apply Int.floor_le_floor
    have : q * 1000 ≤ r * 1000 :=
      mul_le_mul_of_nonneg_right h (by norm_num)
    linarith
  have : ((⌊q * 1000 + 1 / 2⌋ : ℚ)) ≤ ((⌊r * 1000 + 1 / 2⌋ : ℚ)) := by
    exact_mod_cast hf
  linarith

theorem round3_threshold : round3 MIN_SCORE = MIN_SCORE := by
  have h : ⌊MIN_SCORE * 1000 + 1 / 2⌋ = (650 : ℤ) := by
    apply Int.floor_eq_iff.mpr
    constructor <;> norm_num [MIN_SCORE]
  unfold round3 jsRound
  rw [h]
  norm_num [MIN_SCORE]

theorem round3_le_of_lt {q : ℚ} (h : q < MIN_SCORE) : round3 q ≤ MIN_SCORE := by
  have h650 : q * 1000 < 650 := by
    have := mul_lt_mul_of_pos_right h (by norm_num : (0 : ℚ) < 1000)
    calc q * 1000 < MIN_SCORE * 1000 := this
      _ = 650 := by norm_num [MIN_SCORE]
  have hlt : q * 1000 + 1 / 2 < ((651 : ℤ) : ℚ) := by push_cast; linarith
  have h2 : jsRound (q * 1000) ≤ 650 := by
    have := Int.floor_lt.mpr hlt
    unfold jsRound
    omega
  unfold round3
  have : ((jsRound (q * 1000) : ℚ)) ≤ 650 := by exact_mod_cast h2
  calc (jsRound (q * 1000) : ℚ) / 1000 ≤ 650 / 1000 := by linarith
    _ = MIN_SCORE := by norm_num [MIN_SCORE]

theorem threshold_le_round3 {q : ℚ} (h : MIN_SCORE ≤ q) : MIN_SCORE ≤ round3 q := by
  calc MIN_SCORE = round3 MIN_SCORE := round3_threshold.symm
    _ ≤ round3 q := round3_mono h

theorem length_filter_partition (l : List Candidate) :
    (l.filter (fun r => MIN_SCORE ≤ r.score)).length +
      (l.filter (fun r => r.score < MIN_SCORE)).length = l.length := by
  induction l with
  | nil => rfl
  | cons r rest ih =>
    by_cases h : MIN_SCORE ≤ r.score
    · simp [List.filter_cons, h, not_lt.mpr h]
      omega
    · simp [List.filter_cons, h, not_le.mp h]
      omega

theorem round3_boundary : round3 (1299 / 2000 : ℚ) = 65 / 100 := by
  have harg : (1299 : ℚ) / 2000 * 1000 + 1 / 2 = ((650 : ℤ) : ℚ) := by norm_num
  unfold round3 jsRound
  rw [harg, Int.floor_intCast]
  norm_num

theorem boundary_lt_threshold : (1299 / 2000 : ℚ) < MIN_SCORE := by
  norm_num [MIN_SCORE]

/-- C2, counterexample.  A candidate with raw score 0.6495 (< 0.65) is
routed to `skipped`, but the score carried in the result is rounded to
0.65, which is not `<` the returned threshold — so the claim's "every
entry of skipped has score < the threshold", read on the scores the
result carries, fails. -/
theorem C2_counterexample :
    ((retrieveFromResults
        [{ payload := fullDocChunk "abc".data "M", score := 1299 / 2000 }]).skipped.map
          (fun d => d.score) = [65 / 100]) ∧
    ¬ (∀ d ∈ (retrieveFromResults
          [{ payload := fullDocChunk "abc".data "M", score := 1299 / 2000 }]).skipped,
        d.score <
          (retrieveFromResults
            [{ payload := fullDocChunk "abc".data "M",
               score := 1299 / 2000 }]).threshold) := by
  have hlt := boundary_lt_threshold
  have hnle : ¬ (MIN_SCORE ≤ (1299 / 2000 : ℚ)) := not_le.mpr hlt
  constructor
  · simp [retrieveFromResults, List.filter_cons, hlt, hnle, mkRetrievedDoc,
      round3_boundary]
  · intro hall
    have hm : mkRetrievedDoc
        { payload := fullDocChunk "abc".data "M", score := 1299 / 2000 } ∈
        (retrieveFromResults
          [{ payload := fullDocChunk "abc".data "M",
             score := 1299 / 2000 }]).skipped := by
      simp [retrieveFromResults, List.filter_cons, hlt]
    have hcontra := hall _ hm
    simp only [mkRetrievedDoc, retrieveFromResults, round3_boundary] at hcontra
    have : ¬ ((65 / 100 : ℚ) < MIN_SCORE) := by norm_num [MIN_SCORE]
    exact this hcontra

/-- C2, amended.  For a candidate list sorted by descending raw score
(as both index implementations return): the carried `docs` scores are
sorted descending; every `docs` entry's carried score is ≥ the returned
threshold; every `skipped` entry's carried score is ≤ the threshold
(the partition is by *raw* score < 0.65, and rounding can lift a raw
score in [0.6495, 0.65) up to exactly the threshold); every carried
score is a multiple of 1/1000 (rounded to 3 decimal places);
`|docs| + |skipped|` equals the number of candidates; and the returned
threshold is 0.65. -/
theorem C2_retrieve (results : List Candidate)
    (hsorted : results.Pairwise (fun a b => b.score ≤ a.score)) :
    ((retrieveFromResults results).docs.Pairwise
        (fun a b => b.score ≤ a.score)) ∧
    (∀ d ∈ (retrieveFromResults results).docs,
        (retrieveFromResults results).threshold ≤ d.score) ∧
    (∀ d ∈ (retrieveFromResults results).skipped,
        d.score ≤ (retrieveFromResults results).threshold) ∧
    (∀ d ∈ (retrieveFromResults results).docs ++
        (retrieveFromResults results).skipped,
        ∃ k : ℤ, d.score = (k : ℚ) / 1000) ∧
    ((retrieveFromResults results).docs.length +
        (retrieveFromResults results).skipped.length = results.length) ∧
    ((retrieveFromResults results).threshold = 65 / 100) := by
  refine ⟨?_, ?_, ?_, ?_, ?_, rfl⟩
  · apply List.Pairwise.map
    · exact fun a b hab => round3_mono hab
    · exact hsorted.filter _
  · intro d hd
    simp only [retrieveFromResults, List.mem_map] at hd
    rcases hd with ⟨r, hr, rfl⟩
    have := List.of_mem_filter hr
    exact threshold_le_round3 (of_decide_eq_true this)
  · intro d hd
    simp only [retrieveFromResults, List.mem_map] at hd
    rcases hd with ⟨r, hr, rfl⟩
    have := List.of_mem_filter hr
    exact round3_le_of_lt (of_decide_eq_true this)
  · intro d hd
    rcases List.mem_append.mp hd with hd' | hd' <;>
      · simp only [retrieveFromResults, List.mem_map] at hd'
        rcases hd' with ⟨r, _, rfl⟩
        exact ⟨jsRound (r.score * 1000), rfl⟩
  · simp only [retrieveFromResults, List.length_map]
    exact length_filter_partition results

/-- C2 witness: the amended theorem applied to a concrete sorted
two-candidate list (scores 0.7 and 0.5). -/
theorem C2_witness :
    (retrieveFromResults
        [{ payload := fullDocChunk "abc".data "M", score := 7 / 10 },
         { payload := fullDocChunk "abc".data "M", score := 1 / 2 }]).docs.length +
      (retrieveFromResults
        [{ payload := fullDocChunk "abc".data "M", score := 7 / 10 },
         { payload := fullDocChunk "abc".data "M", score := 1 / 2 }]).skipped.length
      = 2 := by
  have h := C2_retrieve
    [{ payload := fullDocChunk "abc".data "M", score := 7 / 10 },
     { payload := fullDocChunk "abc".data "M", score := 1 / 2 }]
    (by
      refine List.Pairwise.cons ?_ ?_
      · intro b hb
        rw [List.mem_singleton.mp hb]
        norm_num
      · exact List.pairwise_singleton _ _)
  simpa using h.2.2.2.2.1

/-! ## C3 — initialize is not a no-op when already initialized -/

/-- C3, counterexample.  A pipeline that is already initialized (flag
set, store holding one record) is not left unchanged by `initialize`:
the call re-creates the vector store and re-ingests the given corpus,
replacing the stored records — there is no already-initialized guard in
the method. -/
theorem C3_counterexample :
    ({ vectorStore := some (.inMemory
          [{ id := "old", vector := [1], payload := fullDocChunk "abc".data "M" }]),
       isInitialized := true } : PipelineState).isInitialized = true ∧
    (RAGPipeline.initializeCorpus
        { vectorStore := some (.inMemory
            [{ id := "old", vector := [1], payload := fullDocChunk "abc".data "M" }]),
          isInitialized := true }
        { qdrantUrl := none, qdrantApiKey := none, ensure := .ok 0 }
        (fun _ => .ok [1]) "0123456789".data).1 ≠
      ({ vectorStore := some (.inMemory
          [{ id := "old", vector := [1], payload := fullDocChunk "abc".data "M" }]),
         isInitialized := true } : PipelineState) := by
  constructor
  · rfl
  · decide

/-- C3, amended.  `RAGPipeline.initialize` is not guarded by the
initialized flag: the value it returns (success report or thrown error)
is independent of the prior pipeline state, and whenever it succeeds the
resulting state is independent of the prior state too — the store is
always re-created and the corpus re-chunked and re-ingested.  (The
already-initialized short-circuit lives in the caller:
`ensureRAGInitialized` in the analyze route returns early when
`ragPipeline.initialized` is set.) -/
theorem C3_initialize_not_noop (st st' : PipelineState) (env : Env)
    (embed : List Char → Except String (List ℚ)) (manualText : List Char) :
    ((RAGPipeline.initializeCorpus st env embed manualText).2 =
      (RAGPipeline.initializeCorpus st' env embed manualText).2) ∧
    (∀ r, (RAGPipeline.initializeCorpus st env embed manualText).2 = .ok r →
      (RAGPipeline.initializeCorpus st env embed manualText).1 =
        (RAGPipeline.initializeCorpus st' env embed manualText).1) := by
  unfold RAGPipeline.initializeCorpus
  cases hcv : createVectorStore env with
  | error e =>
    refine ⟨rfl, ?_⟩
    intro r hr
    exact absurd hr (by simp)
  | ok store0 =>
    by_cases h0 :
        (ingestChunks embed (chunkManualText manualText "Manual.txt")
          (store0, 0)).2 = 0
    · refine ⟨by simp [h0], ?_⟩
      intro r hr
      simp [h0] at hr
    · exact ⟨by simp [h0], fun r _ => by simp [h0]⟩

/-- C3 witness: the amended theorem applied at two concrete prior
states — one fresh, one already initialized — with a corpus of one
chunk and an always-succeeding embedder: the resulting states agree. -/
theorem C3_witness :
    (RAGPipeline.initializeCorpus
        { vectorStore := none, isInitialized := false }
        { qdrantUrl := none, qdrantApiKey := none, ensure := .ok 0 }
        (fun _ => .ok [1]) "0123456789".data).1 =
      (RAGPipeline.initializeCorpus
        { vectorStore := some (.inMemory
            [{ id := "old", vector := [1], payload := fullDocChunk "abc".data "M" }]),
          isInitialized := true }
        { qdrantUrl := none, qdrantApiKey := none, ensure := .ok 0 }
        (fun _ => .ok [1]) "0123456789".data).1 :=
  (C3_initialize_not_noop
      { vectorStore := none, isInitialized := false }
      { vectorStore := some (.inMemory
          [{ id := "old", vector := [1], payload := fullDocChunk "abc".data "M" }]),
        isInitialized := true }
      { qdrantUrl := none, qdrantApiKey := none, ensure := .ok 0 }
      (fun _ => .ok [1]) "0123456789".data).2
    { chunksStored := 1, storeType := "In-Memory" } rfl

/-! ## C4 — factory degrade policy -/

/-- C4.  The vector-store factory never propagates an error: whenever
the remote initialization (`ensureCollection`) fails it returns the
ephemeral in-memory index — whether or not credentials are configured —
and with falsy credentials it returns the in-memory index directly.
Consequently `initialize` under a failing remote behaves exactly as it
does with no credentials at all, so Retriever initialization never
fails solely because the remote dependency is unreachable. -/
theorem C4_createVectorStore (env : Env) :
    (∃ s, createVectorStore env = .ok s) ∧
    (∀ e, env.ensure = .error e →
        createVectorStore env = .ok (.inMemory [])) ∧
    ((truthy env.qdrantUrl && truthy env.qdrantApiKey) = false →
        createVectorStore env = .ok (.inMemory [])) ∧
    (∀ e, env.ensure = .error e →
        ∀ st embed manualText,
          RAGPipeline.initializeCorpus st env embed manualText =
            RAGPipeline.initializeCorpus st
              { qdrantUrl := none, qdrantApiKey := none, ensure := env.ensure }
              embed manualText) := by
  refine ⟨?_, ?_, ?_, ?_⟩
  · unfold createVectorStore
    by_cases hc : (truthy env.qdrantUrl && truthy env.qdrantApiKey) = true
    · rw [if_pos hc]
      cases env.ensure with
      | ok n => exact ⟨.qdrant n, rfl⟩
      | error e => exact ⟨.inMemory [], rfl⟩
    · rw [if_neg hc]
      exact ⟨.inMemory [], rfl⟩
  · intro e he
    unfold createVectorStore
    rw [he]
    by_cases hc : (truthy env.qdrantUrl && truthy env.qdrantApiKey) = true
    · rw [if_pos hc]
    · rw [if_neg hc]
  · intro hc
    unfold createVectorStore
    rw [if_neg (by simp [hc])]
  · intro e he st embed manualText
    have h1 : createVectorStore env = .ok (.inMemory []) := by
      unfold createVectorStore
      rw [he]
      by_cases hc : (truthy env.qdrantUrl && truthy env.qdrantApiKey) = true
      · rw [if_pos hc]
      · rw [if_neg hc]
    have h2 : createVectorStore
        { qdrantUrl := none, qdrantApiKey := none, ensure := env.ensure } =
        .ok (.inMemory []) := by
      unfold createVectorStore
      simp [truthy]
    unfold RAGPipeline.initializeCorpus
    rw [h1, h2]

/-- C4 witness: a concrete environment with truthy credentials whose
remote initialization rejects falls back to the in-memory store. -/
theorem C4_witness :
    createVectorStore
      { qdrantUrl := some "https://q", qdrantApiKey := some "k",
        ensure := .error "connect ECONNREFUSED" } = .ok (.inMemory []) :=
  (C4_createVectorStore _).2.1 "connect ECONNREFUSED" rfl

/-! ## C5, C6, C7, C8 — generator candidate loop -/

/-- C5.  In the candidate loop, a call failure not classified as a
credential error records `model + ": " + msg` and advances to the next
candidate; when every candidate fails with a non-credential error the
loop throws the aggregate error whose message joins every recorded
per-candidate failure message; and so does the exported
`generatePlanningReport` when the API key is present. -/
theorem C5_nonfatal_failures_aggregate (call : String → CallResult)
    (parse : String → Option Generator.ParsedReport) (keyword : String) :
    (∀ m rest errors msg, call m = .err msg →
        Generator.isCredentialMsg msg = false →
        Generator.generateLoop call parse keyword (m :: rest) errors =
          Generator.generateLoop call parse keyword rest
            (errors ++ [m ++ ": " ++ msg])) ∧
    (∀ models errors (f : String → String),
        (∀ m ∈ models, call m = .err (f m) ∧
            Generator.isCredentialMsg (f m) = false) →
        Generator.generateLoop call parse keyword models errors =
          .error ("所有模型均失敗:\n" ++ String.intercalate "\n"
            (errors ++ models.map (fun m => m ++ ": " ++ f m)))) ∧
    (∀ apiKey (f : String → String), truthy apiKey = true →
        (∀ m ∈ Generator.MODEL_FALLBACKS, call m = .err (f m) ∧
            Generator.isCredentialMsg (f m) = false) →
        Generator.generatePlanningReport apiKey call parse keyword =
          .error ("所有模型均失敗:\n" ++ String.intercalate "\n"
            (Generator.MODEL_FALLBACKS.map (fun m => m ++ ": " ++ f m)))) := by
  have step : ∀ m rest errors msg, call m = .err msg →
      Generator.isCredentialMsg msg = false →
      Generator.generateLoop call parse keyword (m :: rest) errors =
        Generator.generateLoop call parse keyword rest
          (errors ++ [m ++ ": " ++ msg]) := by
    intro m rest errors msg hcall hcred
    simp [Generator.generateLoop, hcall, hcred]
  have agg : ∀ models errors (f : String → String),
      (∀ m ∈ models, call m = .err (f m) ∧
          Generator.isCredentialMsg (f m) = false) →
      Generator.generateLoop call parse keyword models errors =
        .error ("所有模型均失敗:\n" ++ String.intercalate "\n"
          (errors ++ models.map (fun m => m ++ ": " ++ f m))) := by
    intro models
    induction models with
    | nil => intro errors f _; simp [Generator.generateLoop]
    | cons m rest ih =>
      intro errors f h
      have hm := h m (List.mem_cons_self m rest)
      rw [step m rest errors (f m) hm.1 hm.2]
      rw [ih (errors ++ [m ++ ": " ++ f m])
        f (fun m' hm' => h m' (List.mem_cons_of_mem _ hm'))]
      simp
  refine ⟨step, agg, ?_⟩
  intro apiKey f htruthy h
  unfold Generator.generatePlanningReport
  rw [htruthy]
  simpa using agg Generator.MODEL_FALLBACKS [] f h

/-- C5 witness: every candidate of the real fallback list fails with a
quota-style (non-credential) error, and the aggregate error message
joins all five per-candidate messages. -/
theorem C5_witness :
    Generator.generatePlanningReport (some "key")
        (fun m => .err ("boom " ++ m)) (fun _ => none) "kw" =
      .error ("所有模型均失敗:\n" ++ String.intercalate "\n"
        (Generator.MODEL_FALLBACKS.map (fun m => m ++ ": " ++ ("boom " ++ m)))) :=
  (C5_nonfatal_failures_aggregate (fun m => .err ("boom " ++ m))
      (fun _ => none) "kw").2.2 (some "key") (fun m => "boom " ++ m)
    rfl (by decide)

/-- C6.  A call failure whose message is classified as a credential
error aborts the loop immediately with the fatal configuration error:
after any run of failing non-credential candidates, the result is the
same fixed error for *every* list of later candidates, so no candidate
after the credential failure is ever attempted. -/
theorem C6_credential_abort (call : String → CallResult)
    (parse : String → Option Generator.ParsedReport) (keyword : String)
    (m msg : String) (hm : call m = .err msg)
    (hcred : Generator.isCredentialMsg msg = true) :
    ∀ pre, (∀ p ∈ pre, ∃ msg', call p = .err msg' ∧
        Generator.isCredentialMsg msg' = false) →
      ∀ post errors,
        Generator.generateLoop call parse keyword (pre ++ m :: post) errors =
          .error "Invalid Gemini API key. Please check your GEMINI_API_KEY environment variable." := by
  intro pre
  induction pre with
  | nil =>
    intro _ post errors
    simp [Generator.generateLoop, hm, hcred]
  | cons p rest ih =>
    intro hpre post errors
    rcases hpre p (List.mem_cons_self p rest) with ⟨msg', hcall', hcred'⟩
    rw [List.cons_append]
    simp only [Generator.generateLoop, hcall', hcred']
    simp only [Bool.false_eq_true, if_false]
    exact ih (fun p' h' => hpre p' (List.mem_cons_of_mem _ h')) post
      (errors ++ [p ++ ": " ++ msg'])

/-- C6 witness: a first-candidate credential failure yields the fatal
configuration error even though a later candidate would have
succeeded. -/
theorem C6_witness :
    Generator.generateLoop
        (fun m => if m = "gemini-3-flash" then .err "Invalid API key provided"
          else .ok "json")
        (fun _ => none) "kw" ("gemini-3-flash" :: ["gemini-3-pro"]) [] =
      .error "Invalid Gemini API key. Please check your GEMINI_API_KEY environment variable." :=
  C6_credential_abort
    (fun m => if m = "gemini-3-flash" then .err "Invalid API key provided"
      else .ok "json")
    (fun _ => none) "kw" "gemini-3-flash" "Invalid API key provided"
    (by decide) (by decide) []
    (fun p h => absurd h (List.not_mem_nil p)) ["gemini-3-pro"] []

/-- C7.  When a candidate's call succeeds but the repair chain yields no
parse (`safeParseJSON` returns `null`), the caller receives — not an
exception — the well-formed fallback report: `isFallback = true`, the
title derived from the input keyword, and a single outline entry whose
description is a prefix of the raw text. -/
theorem C7_parse_failure_fallback (call : String → CallResult)
    (parse : String → Option Generator.ParsedReport) (keyword : String)
    (m : String) (rest : List String) (errors : List String) (text : String)
    (hcall : call m = .ok text) (hparse : parse text = none) :
    Generator.generateLoop call parse keyword (m :: rest) errors =
      .ok (Generator.fallbackReport keyword text) ∧
    (Generator.fallbackReport keyword text).isFallback = true ∧
    (Generator.fallbackReport keyword text).title =
      keyword ++ " — SEO 撰寫規劃建議書" ∧
    ((Generator.fallbackReport keyword text).outline.map
        (fun o => o.description)) = [String.mk (text.data.take 500)] ∧
    (text.data.take 500) <+: text.data := by
  refine ⟨?_, rfl, rfl, rfl, List.take_prefix 500 text.data⟩
  simp [Generator.generateLoop, hcall, hparse]

/-- C7 witness: a successful call returning plain prose that no strategy
parses terminates as an `ok` fallback report. -/
theorem C7_witness :
    Generator.generateLoop (fun _ => .ok "plain prose") (fun _ => none) "kw"
        ("gemini-3-flash" :: ["gemini-3-pro"]) [] =
      .ok (Generator.fallbackReport "kw" "plain prose") ∧
    (Generator.fallbackReport "kw" "plain prose").isFallback = true :=
  ⟨(C7_parse_failure_fallback (fun _ => .ok "plain prose") (fun _ => none)
      "kw" "gemini-3-flash" ["gemini-3-pro"] [] "plain prose" rfl rfl).1,
   (C7_parse_failure_fallback (fun _ => .ok "plain prose") (fun _ => none)
      "kw" "gemini-3-flash" ["gemini-3-pro"] [] "plain prose" rfl rfl).2.1⟩

/-- C8, counterexample.  With the real candidate list, a first candidate
that succeeds with unparseable text and later candidates that would
succeed with parseable text: the loop terminates at the first candidate
with its fallback-wrapped report — it does not move on — refuting "the
loop moves on to the next candidate rather than terminating with that
candidate's result". -/
theorem C8_counterexample :
    Generator.generateLoop
        (fun m => if m = "gemini-3-flash" then .ok "not json" else .ok "good")
        (fun t => if t = "not json" then none
          else some { title := some "T", outline := some [],
                      complianceNotes := some [], contentStrategy := some "s",
                      riskWarnings := some [], disclaimer := some "d" })
        "kw" Generator.MODEL_FALLBACKS [] =
      .ok (Generator.fallbackReport "kw" "not json") ∧
    (Generator.fallbackReport "kw" "not json").isFallback = true ∧
    Generator.fallbackReport "kw" "not json" ≠
      Generator.normalizeReport "kw"
        { title := some "T", outline := some [], complianceNotes := some [],
          contentStrategy := some "s", riskWarnings := some [],
          disclaimer := some "d" } := by
  refine ⟨?_, rfl, ?_⟩
  · simp [Generator.generateLoop, Generator.MODEL_FALLBACKS]
  · intro h
    have := congrArg Generator.PlanningReport.isFallback h
    simp [Generator.fallbackReport, Generator.normalizeReport] at this

/-- C8, amended.  When a candidate's call succeeds but the repair chain
yields a true parse failure, the loop terminates immediately with that
candidate's fallback-wrapped report — the same `ok` result for every
list of later candidates — rather than advancing to the next
candidate. -/
theorem C8_parse_failure_terminates (call : String → CallResult)
    (parse : String → Option Generator.ParsedReport) (keyword : String)
    (m text : String) (hcall : call m = .ok text)
    (hparse : parse text = none) :
    ∀ rest rest' errors,
      Generator.generateLoop call parse keyword (m :: rest) errors =
        .ok (Generator.fallbackReport keyword text) ∧
      Generator.generateLoop call parse keyword (m :: rest) errors =
        Generator.generateLoop call parse keyword (m :: rest') errors := by
  intro rest rest' errors
  constructor <;> simp [Generator.generateLoop, hcall, hparse]

/-- C8 witness: the amended theorem at a concrete parse-failing first
candidate. -/
theorem C8_witness :
    Generator.generateLoop (fun _ => .ok "oops") (fun _ => none) "kw"
        ("gemini-3-flash" :: ["gemini-3-pro"]) [] =
      .ok (Generator.fallbackReport "kw" "oops") :=
  ((C8_parse_failure_terminates (fun _ => .ok "oops") (fun _ => none) "kw"
      "gemini-3-flash" "oops" rfl rfl) ["gemini-3-pro"] [] []).1

/-! ## C10 — content-gap loop never throws on exhaustion -/

/-- C10.  The content-gap sub-component never throws on candidate-list
exhaustion: when every candidate fails with a non-credential error the
loop returns the well-formed empty result marked `分析失敗` (and so does
the exported `generateContentGaps` with a present key); a missing API
key throws; and *any* thrown error of the loop is the rethrown original
message of a credential-classified call failure of one of the
candidates. -/
theorem C10_contentGaps_no_throw (call : String → CallResult)
    (parseGaps : String → List ContentGapGen.ContentGap) :
    (∀ models errors (f : String → String),
        (∀ m ∈ models, call m = .err (f m) ∧
            Generator.isCredentialMsg (f m) = false) →
        ContentGapGen.generateGapsLoop call parseGaps models errors =
          .ok { gaps := [], analysisMethod := "分析失敗" }) ∧
    (∀ apiKey (f : String → String), truthy apiKey = true →
        (∀ m ∈ ContentGapGen.MODEL_FALLBACKS, call m = .err (f m) ∧
            Generator.isCredentialMsg (f m) = false) →
        ContentGapGen.generateContentGaps apiKey call parseGaps =
          .ok { gaps := [], analysisMethod := "分析失敗" }) ∧
    (∀ apiKey, truthy apiKey = false →
        ContentGapGen.generateContentGaps apiKey call parseGaps =
          .error "GEMINI_API_KEY environment variable is not set") ∧
    (∀ models errors e,
        ContentGapGen.generateGapsLoop call parseGaps models errors = .error e →
        ∃ m ∈ models, call m = .err e ∧ Generator.isCredentialMsg e = true) := by
  have agg : ∀ models errors (f : String → String),
      (∀ m ∈ models, call m = .err (f m) ∧
          Generator.isCredentialMsg (f m) = false) →
      ContentGapGen.generateGapsLoop call parseGaps models errors =
        .ok { gaps := [], analysisMethod := "分析失敗" } := by
    intro models
    induction models with
    | nil => intro errors f _; simp [ContentGapGen.generateGapsLoop]
    | cons m rest ih =>
      intro errors f h
      have hm := h m (List.mem_cons_self m rest)
      simp only [ContentGapGen.generateGapsLoop, hm.1, hm.2]
      simp only [Bool.false_eq_true, if_false]
      exact ih (errors ++ [m ++ ": " ++ f m]) f
        (fun m' hm' => h m' (List.mem_cons_of_mem _ hm'))
  refine ⟨agg, ?_, ?_, ?_⟩
  · intro apiKey f htruthy h
    unfold ContentGapGen.generateContentGaps
    rw [htruthy]
    simpa using agg ContentGapGen.MODEL_FALLBACKS [] f h
  · intro apiKey hfalsy
    unfold ContentGapGen.generateContentGaps
    rw [hfalsy]
    rfl
  · intro models
    induction models with
    | nil => intro errors e h; simp [ContentGapGen.generateGapsLoop] at h
    | cons m rest ih =>
      intro errors e h
      simp only [ContentGapGen.generateGapsLoop] at h
      cases hcall : call m with
      | ok text =>
        rw [hcall] at h
        dsimp only at h
        by_cases hg : 0 < (parseGaps text).length
        · rw [if_pos hg] at h
          exact absurd h (by simp)
        · rw [if_neg hg] at h
          rcases ih errors e h with ⟨m', hm', hprop⟩
          exact ⟨m', List.mem_cons_of_mem _ hm', hprop⟩
      | err msg =>
        rw [hcall] at h
        dsimp only at h
        by_cases hcred : Generator.isCredentialMsg msg = true
        · rw [if_pos hcred] at h
          have : msg = e := by
            injection h
          subst this
          exact ⟨m, List.mem_cons_self m rest, hcall, hcred⟩
        · rw [if_neg hcred] at h
          rcases ih (errors ++ [m ++ ": " ++ msg]) e h with ⟨m', hm', hprop⟩
          exact ⟨m', List.mem_cons_of_mem _ hm', hprop⟩

/-- C10 witness: all five real candidates failing with quota-style
errors yields the empty well-formed result, not an exception. -/
theorem C10_witness :
    ContentGapGen.generateContentGaps (some "key")
        (fun m => .err ("429 Too Many Requests " ++ m)) (fun _ => []) =
      .ok { gaps := [], analysisMethod := "分析失敗" } :=
  (C10_contentGaps_no_throw (fun m => .err ("429 Too Many Requests " ++ m))
      (fun _ => [])).2.1 (some "key")
    (fun m => "429 Too Many Requests " ++ m) rfl (by decide)

/-! ## C9 — cosine similarity and local search -/

theorem sumSq_nonneg (a : List ℝ) : 0 ≤ (a.map (fun x => x * x)).sum :=
  List.sum_nonneg (fun x hx => by
    rcases List.mem_map.mp hx with ⟨y, _, rfl⟩
    exact mul_self_nonneg y)

/-- C9.  The local similarity is the dot product divided by the product
of the L2 norms, with similarity 0 when the dimensions differ or when
either vector has zero norm; and the local search scores every stored
record with it, sorts descending by score, and returns at most `topK`
results. -/
theorem C9_cosineSimilarity_search :
    (∀ a b : List ℝ, a.length ≠ b.length → cosineSimilarity a b = 0) ∧
    (∀ a b : List ℝ, a.length = b.length →
        Real.sqrt ((a.map (fun x => x * x)).sum) = 0 ∨
          Real.sqrt ((b.map (fun x => x * x)).sum) = 0 →
        cosineSimilarity a b = 0) ∧
    (∀ a b : List ℝ, a.length = b.length →
        Real.sqrt ((a.map (fun x => x * x)).sum) ≠ 0 →
        Real.sqrt ((b.map (fun x => x * x)).sum) ≠ 0 →
        cosineSimilarity a b =
          (a.zipWith (fun x y => x * y) b).sum /
            (Real.sqrt ((a.map (fun x => x * x)).sum) *
              Real.sqrt ((b.map (fun x => x * x)).sum))) ∧
    (∀ (entries : List (VectorEntry ℝ)) (q : List ℝ) (topK : Nat),
        ∃ l : List (TextChunk × ℝ),
          l.Perm (entries.map (fun e => (e.payload, cosineSimilarity q e.vector))) ∧
          l.Pairwise (fun x y => y.2 ≤ x.2) ∧
          searchInMemory entries q topK = l.take topK ∧
          (searchInMemory entries q topK).length ≤ topK) := by
  refine ⟨?_, ?_, ?_, ?_⟩
  · intro a b h
    unfold cosineSimilarity
    rw [if_pos h]
  · intro a b hlen hz
    unfold cosineSimilarity
    rw [if_neg (fun hc => hc hlen)]
    dsimp only
    rcases hz with hz | hz
    · rw [if_pos (by rw [hz, zero_mul])]
    · rw [if_pos (by rw [hz, mul_zero])]
  · intro a b hlen ha hb
    unfold cosineSimilarity
    rw [if_neg (fun hc => hc hlen)]
    dsimp only
    rw [if_neg (mul_ne_zero ha hb)]
  · intro entries q topK
    by_cases he : entries.isEmpty
    · have hnil : entries = [] := List.isEmpty_iff.mp he
      subst hnil
      refine ⟨[], List.Perm.refl _, List.Pairwise.nil, ?_, ?_⟩
      · simp [searchInMemory]
      · simp [searchInMemory]
    · refine ⟨(entries.map
          (fun e => (e.payload, cosineSimilarity q e.vector))).mergeSort
            (fun x y => decide (y.2 ≤ x.2)),
        List.mergeSort_perm _ _, ?_, ?_, ?_⟩
      · have hsorted : List.Pairwise
            (fun a b : TextChunk × ℝ => (decide (b.2 ≤ a.2)) = true)
            ((entries.map
                (fun e => (e.payload, cosineSimilarity q e.vector))).mergeSort
              (fun x y => decide (y.2 ≤ x.2))) :=
          by
            apply List.sorted_mergeSort
            · intro x y z h1 h2
              exact decide_eq_true
                (le_trans (of_decide_eq_true h2) (of_decide_eq_true h1))
            · intro x y
              rcases le_total y.2 x.2 with h | h <;> simp [h]
        exact hsorted.imp (fun hab => of_decide_eq_true hab)
      · unfold searchInMemory
        rw [if_neg he]
      · unfold searchInMemory
        rw [if_neg he]
        exact List.length_take_le _ _

/-- C9 witness: the theorem applied at a concrete dimension mismatch. -/
theorem C9_witness : cosineSimilarity [(1 : ℝ)] [1, 2] = 0 :=
  C9_cosineSimilarity_search.1 [(1 : ℝ)] [1, 2] (by simp)

end SEO